import Mathlib

/-!
Verification of the LifeTrace background pipeline: the association engine,
the summary engine, the job scheduler and the configuration-change
dispatcher.  The Python modules themselves (`task_context_mapper.py`,
`task_summary.py`, `config_watcher.py`, `job_manager.py`) are not part of
the checked-out tree; the devlog documents quote several of their functions
verbatim (`clear_summary_history`, the `mark_contexts_used_in_summary`
call site, the `ConfigChangeType` enum, the try/finally skeleton of
`_process_single_context`), and the rest is modelled from the
specification.  The frontend handler `handleUpdateInterval`
(`frontend/app/scheduler/page.tsx`) is embedded from its TypeScript source.
Confidences are rational numbers in [0,1]; machine floats in the source are
modelled by exact rationals.
-/

namespace LifeTrace

/-! ## Data model -/

/-- An activity record (`Event` row).  `attempted` is the
`auto_association_attempted` column added in the devlog's migration. -/
structure Event where
  id : Nat
  captured_at : Nat
  text : String
  attempted : Bool
deriving Repr, DecidableEq

/-- One association row per event (`EventAssociation` table). -/
structure EventAssociation where
  event_id : Nat
  project_id : Option Nat
  task_id : Option Nat
  project_confidence : Option ℚ
  task_confidence : Option ℚ
  reasoning : String
  used_in_summary : Bool
deriving Repr, DecidableEq

/-- A `task_progress` row: append-only progress summaries. -/
structure ProgressSummary where
  id : Nat
  task_id : Nat
  summary_text : String
  context_count : Nat
deriving Repr, DecidableEq

/-! ## Association engine (`task_context_mapper.py`) -/

/-- Result of one classifier call: a chosen candidate id (or none), a
confidence and free-text reasoning. -/
structure ClassifyResult where
  choice : Option Nat
  confidence : ℚ
  reasoning : String
deriving Repr, DecidableEq

/-- A fallible classifier call: timeouts, rate limits and malformed
responses are `Except.error`. -/
abbrev ClassifyOutcome := Except String ClassifyResult

/-- The black-box classifier capability, as seen by the association engine:
a project-stage call over all projects, and a task-stage call over one
chosen project's in-progress tasks. -/
structure Classifier where
  classifyProject : Event → ClassifyOutcome
  classifyTask : Event → Nat → ClassifyOutcome

/-- Modelled from the spec: the two-stage decision policy of
`_process_single_context` (spec §4.1; `task_context_mapper.py` is not in
the tree).  A stage is accepted only if a candidate was chosen and its
confidence reaches the threshold; the task stage runs only if the project
stage was accepted; classifier errors are caught and recorded as a rejected
outcome.  Returns the association to persist and the number of classifier
calls made. -/
def classify_stages (cls : Classifier) (threshold : ℚ) (e : Event) :
    EventAssociation × Nat :=
  match cls.classifyProject e with
  | .error msg =>
      ({ event_id := e.id, project_id := none, task_id := none,
         project_confidence := none, task_confidence := none,
         reasoning := "classifier error: " ++ msg, used_in_summary := false }, 1)
  | .ok pr =>
      match pr.choice, decide (threshold ≤ pr.confidence) with
      | some pid, true =>
          match cls.classifyTask e pid with
          | .error msg =>
              ({ event_id := e.id, project_id := some pid, task_id := none,
                 project_confidence := some pr.confidence, task_confidence := none,
                 reasoning := "classifier error: " ++ msg, used_in_summary := false }, 2)
          | .ok tr =>
              ({ event_id := e.id, project_id := some pid,
                 task_id := if tr.choice.isSome ∧ threshold ≤ tr.confidence then tr.choice else none,
                 project_confidence := some pr.confidence,
                 task_confidence := some tr.confidence,
                 reasoning := tr.reasoning, used_in_summary := false }, 2)
      | _, _ =>
          ({ event_id := e.id, project_id := none, task_id := none,
             project_confidence := some pr.confidence, task_confidence := none,
             reasoning := pr.reasoning, used_in_summary := false }, 1)

/-- Modelled from the spec and the devlog's try/finally skeleton of
`_process_single_context`: whatever the classification outcome — accepted,
rejected by threshold, or classifier failure — the finally block marks the
record attempted before moving on. -/
def process_single_context (cls : Classifier) (threshold : ℚ) (e : Event) :
    Event × EventAssociation × Nat :=
  let r := classify_stages cls threshold e
  ({ e with attempted := true }, r.1, r.2)

/-- The association engine's view of the record store. -/
structure AssocState where
  events : List Event
  associations : List EventAssociation
deriving Repr, DecidableEq

/-- `mark_context_mapping_attempted`, applied to the batch: flips
`attempted` on the events whose ids were processed. -/
def markAttemptedIfIn (ids : List Nat) (e : Event) : Event :=
  if e.id ∈ ids then { e with attempted := true } else e

/-- Modelled from the spec: one `RunBatch(limit)` of the association engine
(spec §4.1).  Selects up to `limit` events with `attempted = false`,
processes each with `process_single_context`, persists the produced
associations and flips the processed events' flags.  Returns the new state
and the total number of classifier calls the batch made. -/
def run_batch (cls : Classifier) (threshold : ℚ) (limit : Nat)
    (st : AssocState) : AssocState × Nat :=
  let batch := (st.events.filter fun e => !e.attempted).take limit
  let results := batch.map fun e => process_single_context cls threshold e
  ({ events := st.events.map (markAttemptedIfIn (batch.map Event.id)),
     associations := st.associations ++ results.map fun r => r.2.1 },
   (results.map fun r => r.2.2).sum)

/-- Iterated engine runs without an operator reset. -/
def engine_runs (cls : Classifier) (threshold : ℚ) (limit : Nat)
    (st : AssocState) : Nat → AssocState
  | 0 => st
  | n + 1 => (run_batch cls threshold limit (engine_runs cls threshold limit st n)).1

/-- The `attempted` flag of the record at position `i` after `n` engine
runs (`false` when the position is out of range). -/
def attemptedAt (cls : Classifier) (threshold : ℚ) (limit : Nat)
    (st : AssocState) (n i : Nat) : Bool :=
  (((engine_runs cls threshold limit st n).events.get? i).map Event.attempted).getD false

/-! ## Summary engine (`task_summary.py`) -/

/-- The summary engine's view of the record store: the association table
and the append-only `task_progress` table. -/
structure SummaryState where
  associations : List EventAssociation
  progress : List ProgressSummary
deriving Repr, DecidableEq

/-- The selection query of the devlog's §4.2:
`list_contexts(task_id=t, used_in_summary=False)`. -/
def unused_contexts (st : SummaryState) (t : Nat) : List EventAssociation :=
  st.associations.filter fun a => a.task_id == some t && !a.used_in_summary

/-- `mark_contexts_used_in_summary`, from the code quoted in
`devlog/TASK_SUMMARY_OPTIMIZATION.md` §3.3: batch-marks the associations of
the given task whose event ids are listed. -/
def mark_contexts_used_in_summary (t : Nat) (event_ids : List Nat)
    (assocs : List EventAssociation) : List EventAssociation :=
  assocs.map fun a =>
    if a.task_id == some t && event_ids.contains a.event_id then
      { a with used_in_summary := true }
    else a

/-- Python truthiness of the optional id returned by
`save_task_progress`: `None` and `0` are falsy. -/
def truthyId : Option Nat → Bool
  | none => false
  | some n => !(n == 0)

/-- The black-box summarizer capability. -/
structure Summarizer where
  summarize : List String → String

/-- Modelled from the spec: one summary run for task `t` (`task_summary.py`
is not in the tree; spec §4.2 plus the devlog's §4.3 snippet).  Reads the
unused associated contexts at selection time, summarizes their texts,
persists a ProgressSummary row when the store returns an id (`persist t`),
and — exactly as in the quoted `if progress_id:` guard — marks the selected
associations used only when that id is truthy.  `textOf` resolves an event
id to its extracted text. -/
def generate_summary_for_task (sm : Summarizer) (textOf : Nat → String)
    (persist : Nat → Option Nat) (t : Nat) (st : SummaryState) : SummaryState :=
  let selected := unused_contexts st t
  let summaryText := sm.summarize (selected.map fun a => textOf a.event_id)
  match persist t with
  | none => st
  | some pid =>
      let st1 : SummaryState :=
        { st with progress := st.progress ++
            [{ id := pid, task_id := t, summary_text := summaryText,
               context_count := selected.length }] }
      if pid = 0 then st1
      else
        let marked := mark_contexts_used_in_summary t
          (selected.map fun a => a.event_id) st1.associations
        { st1 with associations := marked }

/-- The tasks that have at least one association with
`used_in_summary = false`, each listed once. -/
def tasks_with_unused (st : SummaryState) : List Nat :=
  (st.associations.filterMap fun a =>
    if !a.used_in_summary then a.task_id else none).dedup

/-- Modelled from the spec: the per-task step of `_process_all_tasks`
(spec §4.2): count the unused associated contexts and proceed only when
the count reaches `min_new_contexts`, otherwise skip the task this cycle. -/
def process_task_step (sm : Summarizer) (textOf : Nat → String)
    (persist : Nat → Option Nat) (min_new_contexts t : Nat)
    (st : SummaryState) : SummaryState :=
  if min_new_contexts ≤ (unused_contexts st t).length then
    generate_summary_for_task sm textOf persist t st
  else st

/-- Modelled from the spec: `_process_all_tasks` iterates the tasks having
at least one unused association and applies the per-task step to each. -/
def process_all_tasks (sm : Summarizer) (textOf : Nat → String)
    (persist : Nat → Option Nat) (min_new_contexts : Nat)
    (st : SummaryState) : SummaryState :=
  (tasks_with_unused st).foldl
    (fun acc t => process_task_step sm textOf persist min_new_contexts t acc) st

/-- The summary rows persisted for one task. -/
def progressFor (st : SummaryState) (t : Nat) : List ProgressSummary :=
  st.progress.filter fun p => p.task_id == t

/-- The fold at the heart of `process_all_tasks`, over an explicit task
list. -/
def run_tasks (sm : Summarizer) (textOf : Nat → String)
    (persist : Nat → Option Nat) (min_new_contexts : Nat) (L : List Nat)
    (st : SummaryState) : SummaryState :=
  L.foldl (fun acc t => process_task_step sm textOf persist min_new_contexts t acc) st

/-- `clear_summary_history`, from the code quoted in
`devlog/TASK_SUMMARY_OPTIMIZATION.md` §4.4: with a task id, reset
`used_in_summary` on the rows whose `task_id` equals it; with `None`,
reset it on every row. -/
def clear_summary_history (task_id : Option Nat)
    (assocs : List EventAssociation) : List EventAssociation :=
  match task_id with
  | none => assocs.map fun a => { a with used_in_summary := false }
  | some t => assocs.map fun a =>
      if a.task_id == some t then { a with used_in_summary := false } else a

/-! ## Config change dispatcher (`config_watcher.py`) -/

/-- `ConfigChangeType`, from the enum quoted in
`devlog/CONFIG_CHANGE_HANDLER_UPGRADE.md`: the closed set of configuration
sections plus the wildcard `all`. -/
inductive ConfigChangeType where
  | llm
  | jobs
  | server
  | auto_association
  | task_summary
  | all
deriving Repr, DecidableEq

/-- A configuration section's parsed content, as an association list of
keys to values (the nested dict, flattened; equality of content is what
`_detect_changes` compares with `!=`). -/
abbrev ConfigSection := List (String × String)

/-- A parsed configuration, restricted to the sections the dispatcher
diffs. -/
structure Config where
  llm : ConfigSection
  jobs : ConfigSection
  server : ConfigSection
  auto_association : ConfigSection
  task_summary : ConfigSection
deriving Repr, DecidableEq

/-- The non-wildcard change types, in the order `_detect_changes` checks
them. -/
def sectionTypes : List ConfigChangeType :=
  [.llm, .jobs, .server, .auto_association, .task_summary]

/-- The section of a configuration addressed by a change type (the
wildcard addresses no section of its own). -/
def getSection (c : Config) : ConfigChangeType → ConfigSection
  | .llm => c.llm
  | .jobs => c.jobs
  | .server => c.server
  | .auto_association => c.auto_association
  | .task_summary => c.task_summary
  | .all => []

/-- Modelled from the spec and the devlog's `_detect_changes` extension
example (`config_watcher.py` is not in the tree): for each known section,
emit `(type, old_section, new_section)` exactly when the contents differ. -/
def detect_changes (old new : Config) :
    List (ConfigChangeType × ConfigSection × ConfigSection) :=
  sectionTypes.filterMap fun ty =>
    if getSection old ty ≠ getSection new ty then
      some (ty, getSection old ty, getSection new ty)
    else none

/-- Handlers are identified by a registry of
`(ConfigChangeType, handler id)` pairs, the typed map of spec §9. -/
abbrev HandlerRegistry := List (ConfigChangeType × Nat)

/-- Modelled from the spec: the recipients `_notify_handlers_by_type`
selects for one emitted entry — every handler registered for the entry's
type, then every handler registered for the wildcard type. -/
def handlersFor (regs : HandlerRegistry) (ty : ConfigChangeType) : List Nat :=
  (regs.filterMap fun r => if r.1 = ty then some r.2 else none) ++
    (regs.filterMap fun r => if r.1 = ConfigChangeType.all then some r.2 else none)

/-- One recorded handler invocation: which handler was called, with which
change type and old/new section contents. -/
structure Invocation where
  handler : Nat
  ty : ConfigChangeType
  old_value : ConfigSection
  new_value : ConfigSection
deriving Repr, DecidableEq

/-- Modelled from the spec: a full dispatch of one configuration reload —
for each emitted entry, invoke every selected handler with
`(type, old_section, new_section)`. -/
def dispatch_changes (regs : HandlerRegistry) (old new : Config) :
    List Invocation :=
  (detect_changes old new).flatMap fun entry =>
    (handlersFor regs entry.1).map fun h =>
      { handler := h, ty := entry.1,
        old_value := entry.2.1, new_value := entry.2.2 }

/-- Whether a handler raises when called on a given change type: the
behaviour oracle for the isolation theorems. -/
abbrev FailureOracle := ConfigChangeType → Nat → Bool

/-- One handler call, which may raise. -/
def callHandler (fails : FailureOracle) (inv : Invocation) : Except String Unit :=
  if fails inv.ty inv.handler then .error "handler raised" else .ok ()

/-- What dispatch accumulates: the calls made and the exceptions caught
and logged at the dispatch site. -/
structure DispatchLog where
  invoked : List Invocation
  errorsLogged : List (Nat × ConfigChangeType)
deriving Repr, DecidableEq

/-- One iteration of the dispatch loop, with the per-call try/except: the
handler is called; a raised exception is caught and logged, and the loop
goes on to the next handler either way. -/
def notifyStep (fails : FailureOracle) (log : DispatchLog)
    (inv : Invocation) : DispatchLog :=
  match callHandler fails inv with
  | .error _ =>
      { invoked := log.invoked ++ [inv],
        errorsLogged := log.errorsLogged ++ [(inv.handler, inv.ty)] }
  | .ok _ => { log with invoked := log.invoked ++ [inv] }

/-- Modelled from the spec: the dispatch loop — each selected handler is
called in turn, exceptions are caught at the dispatch site. -/
def notifyAll (fails : FailureOracle) (invs : List Invocation) : DispatchLog :=
  invs.foldl (notifyStep fails) { invoked := [], errorsLogged := [] }

/-- A reload dispatched against fallible handlers. -/
def dispatch_with_failures (fails : FailureOracle) (regs : HandlerRegistry)
    (old new : Config) : DispatchLog :=
  notifyAll fails (dispatch_changes regs old new)

/-! ## Job scheduler (spec §4.3) -/

/-- External stimuli of the scheduler: a job's interval trigger fires, or
a running job invocation finishes. -/
inductive SchedEvent where
  | fire (job : Nat)
  | finish (job : Nat)
deriving Repr, DecidableEq

/-- Observable scheduler log entries. -/
inductive SchedLogKind where
  | started
  | finished
  | misfireCoalesced
deriving Repr, DecidableEq

/-- One scheduler log entry. -/
structure SchedLogEntry where
  job : Nat
  kind : SchedLogKind
deriving Repr, DecidableEq

/-- Scheduler state: the jobs whose previous invocation has not finished,
and the observable log. -/
structure SchedState where
  running : List Nat
  history : List SchedLogEntry
deriving Repr, DecidableEq

/-- Modelled from the spec: the scheduler's non-reentrancy rule (spec §4.3,
§7; the scheduler wrapper is not in the tree).  A trigger firing while the
same job's previous invocation is still active is coalesced: nothing
starts, and a misfire entry — not an error — is logged.  Otherwise the job
starts; a finish removes the job from the running set. -/
def schedStep (st : SchedState) (ev : SchedEvent) : SchedState :=
  match ev with
  | .fire j =>
      if j ∈ st.running then
        { st with history := st.history ++ [{ job := j, kind := .misfireCoalesced }] }
      else
        { running := j :: st.running,
          history := st.history ++ [{ job := j, kind := .started }] }
  | .finish j =>
      if j ∈ st.running then
        { running := st.running.erase j,
          history := st.history ++ [{ job := j, kind := .finished }] }
      else st

/-- The scheduler run over a whole stimulus sequence, from the initial
state (no job running, empty log). -/
def schedRun (evs : List SchedEvent) : SchedState :=
  evs.foldl schedStep { running := [], history := [] }

/-- How many log entries of the given kind the history holds for job `j`. -/
def countKind (h : List SchedLogEntry) (j : Nat) (k : SchedLogKind) : Nat :=
  (h.filter fun e => e.job == j && e.kind == k).length

/-- The scheduler's safety invariant: the running set has no duplicates,
and for every job the started entries exceed the finished ones by exactly
its running bit — so no job ever has two unfinished executions. -/
def SchedInv (st : SchedState) : Prop :=
  st.running.Nodup ∧ ∀ j, countKind st.history j .started =
    countKind st.history j .finished + (if j ∈ st.running then 1 else 0)

/-! ## Frontend scheduler page (`frontend/app/scheduler/page.tsx`) -/

/-- The PUT body `handleUpdateInterval` sends to
`/api/scheduler/jobs/{id}/interval`. -/
structure IntervalUpdateReq where
  job_id : Nat
  hours : Option Nat
  minutes : Option Nat
  seconds : Option Nat
deriving Repr, DecidableEq

/-- JavaScript truthiness of `intervalX ? parseInt(intervalX) : undefined`:
an empty field (`none`) and a parsed `0` are both falsy. -/
def unitTruthy : Option Nat → Bool
  | none => false
  | some n => !(n == 0)

/-- `handleUpdateInterval` from `frontend/app/scheduler/page.tsx`: each
field is the parsed numeric input (`none` when the input is empty).  When
`!seconds && !minutes && !hours` it sets the error message and returns
without fetching; otherwise it issues one PUT request carrying the parsed
units. -/
def handleUpdateInterval (jobId : Nat) (hours minutes seconds : Option Nat) :
    Except String IntervalUpdateReq :=
  if !unitTruthy seconds && !unitTruthy minutes && !unitTruthy hours then
    .error "请至少设置一个时间间隔"
  else
    .ok { job_id := jobId, hours := hours, minutes := minutes, seconds := seconds }

/-! ## Sample data for concrete evaluations -/

/-- A persisted association for task 5, already used in a summary. -/
def assocRow1 : EventAssociation :=
  { event_id := 1, project_id := some 2, task_id := some 5,
    project_confidence := none, task_confidence := none,
    reasoning := "r1", used_in_summary := true }

/-- A persisted association for task 6, already used in a summary. -/
def assocRow2 : EventAssociation :=
  { event_id := 2, project_id := some 2, task_id := some 6,
    project_confidence := none, task_confidence := none,
    reasoning := "r2", used_in_summary := true }

/-- A classifier whose backing service is unreachable: every call fails. -/
def offlineClassifier : Classifier :=
  { classifyProject := fun _ => .error "offline",
    classifyTask := fun _ _ => .error "offline" }

/-- A record store with a single already-attempted event. -/
def allAttemptedState : AssocState :=
  { events := [{ id := 1, captured_at := 10, text := "work", attempted := true }],
    associations := [] }

/-- The spec's scenario classifier: project chosen with confidence 0.92,
task chosen with confidence 0.55. -/
def scenarioClassifier : Classifier :=
  { classifyProject := fun _ =>
      .ok { choice := some 2, confidence := 92/100, reasoning := "project match" },
    classifyTask := fun _ _ =>
      .ok { choice := some 5, confidence := 55/100, reasoning := "task guess" } }

/-- An unattempted captured record. -/
def sampleEvent : Event :=
  { id := 1, captured_at := 10, text := "work", attempted := false }

/-- A summarizer returning a fixed text. -/
def constSummarizer : Summarizer :=
  { summarize := fun _ => "progress summary" }

/-- A store whose progress-row insert always fails. -/
def failingPersist : Nat → Option Nat := fun _ => none

/-- A store whose progress-row insert returns row id 7. -/
def okPersist : Nat → Option Nat := fun _ => some 7

/-- Five unused associations for task 5 and one for task 6. -/
def summaryRunState : SummaryState :=
  { associations :=
      [{ event_id := 1, project_id := some 2, task_id := some 5,
         project_confidence := none, task_confidence := none,
         reasoning := "a", used_in_summary := false },
       { event_id := 2, project_id := some 2, task_id := some 5,
         project_confidence := none, task_confidence := none,
         reasoning := "b", used_in_summary := false },
       { event_id := 3, project_id := some 2, task_id := some 5,
         project_confidence := none, task_confidence := none,
         reasoning := "c", used_in_summary := false },
       { event_id := 4, project_id := some 2, task_id := some 5,
         project_confidence := none, task_confidence := none,
         reasoning := "d", used_in_summary := false },
       { event_id := 5, project_id := some 2, task_id := some 5,
         project_confidence := none, task_confidence := none,
         reasoning := "e", used_in_summary := false },
       { event_id := 6, project_id := some 2, task_id := some 6,
         project_confidence := none, task_confidence := none,
         reasoning := "f", used_in_summary := false }],
    progress := [] }

/-- A configuration with the five diffed sections populated. -/
def oldConfig : Config :=
  { llm := [("model", "m1")], jobs := [("interval", "60")], server := [],
    auto_association := [("confidence_threshold", "0.7")],
    task_summary := [("min_new_contexts", "5")] }

/-- `oldConfig` with only the auto-association section edited. -/
def newConfig : Config :=
  { llm := [("model", "m1")], jobs := [("interval", "60")], server := [],
    auto_association := [("confidence_threshold", "0.8")],
    task_summary := [("min_new_contexts", "5")] }

/-- A registry: handler 1 for jobs, handler 2 for auto-association,
handler 3 for the wildcard type. -/
def sampleRegs : HandlerRegistry :=
  [(.jobs, 1), (.auto_association, 2), (.all, 3)]

/-- A registry with two handlers on the auto-association type and one on
the task-summary type. -/
def pairRegs : HandlerRegistry :=
  [(.auto_association, 1), (.auto_association, 2), (.task_summary, 4)]

/-- A behaviour where handler 1 raises on every change. -/
def failsFirst : FailureOracle := fun _ h => h == 1

/-! ## General lemmas -/

theorem markAttemptedIfIn_mono (ids : List Nat) (e : Event)
    (h : e.attempted = true) : (markAttemptedIfIn ids e).attempted = true := by
  unfold markAttemptedIfIn
  split <;> simp [h]

theorem engine_runs_succ_events (cls : Classifier) (threshold : ℚ)
    (limit : Nat) (st : AssocState) (n : Nat) :
    ∃ ids, (engine_runs cls threshold limit st (n + 1)).events =
      (engine_runs cls threshold limit st n).events.map (markAttemptedIfIn ids) :=
  ⟨_, rfl⟩

theorem clear_some_get (t : Nat) (assocs : List EventAssociation) (i : Nat) :
    (clear_summary_history (some t) assocs).get? i =
      (assocs.get? i).map fun a =>
        if a.task_id == some t then { a with used_in_summary := false } else a := by
  simp [clear_summary_history, List.get?_map]

theorem clear_none_get (assocs : List EventAssociation) (i : Nat) :
    (clear_summary_history none assocs).get? i =
      (assocs.get? i).map fun a => { a with used_in_summary := false } := by
  simp [clear_summary_history, List.get?_map]

theorem truthy_exists (o : Option Nat) (h : truthyId o = true) :
    ∃ pid, o = some pid ∧ pid ≠ 0 := by
  cases o with
  | none => simp [truthyId] at h
  | some pid =>
    refine ⟨pid, rfl, ?_⟩
    simpa [truthyId] using h

theorem generate_truthy_eq (sm : Summarizer) (textOf : Nat → String)
    (persist : Nat → Option Nat) (t : Nat) (st : SummaryState) (pid : Nat)
    (hp : persist t = some pid) (hpz : pid ≠ 0) :
    generate_summary_for_task sm textOf persist t st =
      { associations :=
          mark_contexts_used_in_summary t
            ((unused_contexts st t).map fun a => a.event_id) st.associations,
        progress := st.progress ++
          [{ id := pid, task_id := t,
             summary_text :=
               sm.summarize ((unused_contexts st t).map fun a => textOf a.event_id),
             context_count := (unused_contexts st t).length }] } := by
  unfold generate_summary_for_task
  simp [hp, hpz]

theorem generate_falsy_assoc (sm : Summarizer) (textOf : Nat → String)
    (persist : Nat → Option Nat) (t : Nat) (st : SummaryState)
    (h : truthyId (persist t) = false) :
    (generate_summary_for_task sm textOf persist t st).associations =
      st.associations := by
  unfold generate_summary_for_task
  cases hp : persist t with
  | none => simp
  | some pid =>
    have hz : pid = 0 := by
      rw [hp] at h
      simpa [truthyId] using h
    subst hz
    simp

theorem mark_get (t : Nat) (ids : List Nat) (l : List EventAssociation)
    (i : Nat) :
    (mark_contexts_used_in_summary t ids l).get? i = (l.get? i).map fun a =>
      if a.task_id == some t && ids.contains a.event_id then
        { a with used_in_summary := true }
      else a := by
  simp [mark_contexts_used_in_summary, List.get?_map]

theorem unused_contexts_mk (A : List EventAssociation)
    (P : List ProgressSummary) (t : Nat) :
    unused_contexts { associations := A, progress := P } t =
      A.filter fun a => a.task_id == some t && !a.used_in_summary := rfl

theorem mark_all_filter (t : Nat) (ids : List Nat)
    (l : List EventAssociation)
    (hids : ∀ a ∈ l, a.task_id = some t → a.used_in_summary = false →
      ids.contains a.event_id = true) :
    (mark_contexts_used_in_summary t ids l).filter
      (fun a => a.task_id == some t && !a.used_in_summary) = [] := by
  induction l with
  | nil => rfl
  | cons a l ih =>
    have hrest := ih fun x hx => hids x (List.mem_cons_of_mem a hx)
    by_cases hc : (a.task_id == some t && ids.contains a.event_id) = true
    · simp only [mark_contexts_used_in_summary, List.map_cons, if_pos hc,
        List.filter_cons] at *
      simpa using hrest
    · have hpa : (a.task_id == some t && !a.used_in_summary) = false := by
        rcases hb : (a.task_id == some t) with _ | _
        · simp [hb]
        · rcases hu : a.used_in_summary with _ | _
          · have hcont := hids a (List.mem_cons_self a l) (by simpa using hb) hu
            refine absurd ?_ hc
            simp only [hb, hcont, Bool.and_self]
          · simp [hu]
      simp only [mark_contexts_used_in_summary, List.map_cons, if_neg hc,
        List.filter_cons, hpa] at *
      simpa using hrest

theorem unused_after_generate (sm : Summarizer) (textOf : Nat → String)
    (persist : Nat → Option Nat) (t : Nat) (st : SummaryState)
    (h : truthyId (persist t) = true) :
    unused_contexts (generate_summary_for_task sm textOf persist t st) t = [] := by
  obtain ⟨pid, hp, hpz⟩ := truthy_exists _ h
  rw [generate_truthy_eq sm textOf persist t st pid hp hpz,
    unused_contexts_mk]
  apply mark_all_filter
  intro a ha hat hau
  have hmem : a ∈ unused_contexts st t := by
    unfold unused_contexts
    exact List.mem_filter.mpr ⟨ha, by simp [hat, hau]⟩
  have hid : a.event_id ∈ (unused_contexts st t).map fun a => a.event_id :=
    List.mem_map.mpr ⟨a, hmem, rfl⟩
  simpa using hid

/-! ## Claim theorems -/

/-- C8: `ClearSummaryHistory(some t)` resets `used_in_summary` on exactly
the associations whose `task_id` equals `t`, leaving their other fields —
and every association of a different task entirely — unchanged;
`ClearSummaryHistory(none)` resets the flag on every association, leaving
all other fields unchanged. -/
theorem clear_summary_history_scoped_reset (t : Nat)
    (assocs : List EventAssociation) :
    (∀ i a a', assocs.get? i = some a →
        (clear_summary_history (some t) assocs).get? i = some a' →
        (a.task_id = some t → a' = { a with used_in_summary := false }) ∧
        (a.task_id ≠ some t → a' = a)) ∧
    (∀ i a a', assocs.get? i = some a →
        (clear_summary_history none assocs).get? i = some a' →
        a' = { a with used_in_summary := false }) := by
  constructor
  · intro i a a' ha ha'
    rw [clear_some_get, ha] at ha'
    simp only [Option.map_some', Option.some.injEq] at ha'
    constructor
    · intro ht
      have hb : (a.task_id == some t) = true := by simp [ht]
      simp only [hb, if_true] at ha'
      exact ha'.symm
    · intro ht
      have hb : (a.task_id == some t) = false := by
        simpa using ht
      simp only [hb, Bool.false_eq_true, if_false] at ha'
      exact ha'.symm
  · intro i a a' ha ha'
    rw [clear_none_get, ha] at ha'
    simp only [Option.map_some', Option.some.injEq] at ha'
    exact ha'.symm

/-- C8 witness: on the two-row table `[assocRow1, assocRow2]`, clearing
task 5's history resets the flag of the task-5 row and leaves the task-6
row untouched. -/
theorem clear_summary_history_scoped_reset_witness :
    [assocRow1, assocRow2].get? 0 = some assocRow1 ∧
    (clear_summary_history (some 5) [assocRow1, assocRow2]).get? 0 =
      some { assocRow1 with used_in_summary := false } ∧
    (clear_summary_history (some 5) [assocRow1, assocRow2]).get? 1 =
      some assocRow2 ∧
    { assocRow1 with used_in_summary := false } =
      { assocRow1 with used_in_summary := false } ∧
    assocRow2 = assocRow2 := by
  have h := clear_summary_history_scoped_reset 5 [assocRow1, assocRow2]
  refine ⟨by decide, by decide, by decide, ?_, ?_⟩
  · exact (h.1 0 assocRow1 { assocRow1 with used_in_summary := false }
      (by decide) (by decide)).1 rfl
  · exact (h.1 1 assocRow2 assocRow2 (by decide) (by decide)).2 (by decide)

/-- C9 counterexample: filling only the seconds field with `0` provides a
unit, yet `handleUpdateInterval` sets the error message and issues no
update request — the `!seconds && !minutes && !hours` guard treats a
parsed `0` like a missing field. -/
theorem set_interval_zero_unit_counterexample :
    (some 0 : Option Nat) ≠ none ∧
    handleUpdateInterval 1 none none (some 0) = .error "请至少设置一个时间间隔" := by
  exact ⟨by decide, rfl⟩

/-- C9 amended: at least one unit with a nonzero parsed value is required:
when every unit is empty or parses to `0` the handler reports the error and
issues no request, and when at least one unit is nonzero it issues a single
update request carrying the given units. -/
theorem set_interval_requires_nonzero_unit (jobId : Nat)
    (hours minutes seconds : Option Nat) :
    (unitTruthy hours = false ∧ unitTruthy minutes = false ∧
        unitTruthy seconds = false →
      handleUpdateInterval jobId hours minutes seconds =
        .error "请至少设置一个时间间隔") ∧
    (unitTruthy hours = true ∨ unitTruthy minutes = true ∨
        unitTruthy seconds = true →
      handleUpdateInterval jobId hours minutes seconds =
        .ok { job_id := jobId, hours := hours, minutes := minutes,
              seconds := seconds }) := by
  constructor
  · rintro ⟨h1, h2, h3⟩
    simp [handleUpdateInterval, h1, h2, h3]
  · rintro (h | h | h) <;> simp [handleUpdateInterval, h]

/-- C9 witness: a request with only `seconds = 30` is sent as one PUT body,
and a request with every field empty is rejected without a request. -/
theorem set_interval_requires_nonzero_unit_witness :
    handleUpdateInterval 2 none none (some 30) =
      .ok { job_id := 2, hours := none, minutes := none, seconds := some 30 } ∧
    handleUpdateInterval 3 none none none = .error "请至少设置一个时间间隔" := by
  exact ⟨(set_interval_requires_nonzero_unit 2 none none (some 30)).2
      (Or.inr (Or.inr (by decide))),
    (set_interval_requires_nonzero_unit 3 none none none).1 (by decide)⟩

/-- C2: an association produced by the two-stage decision policy satisfies
threshold gating: a non-null `task_id` implies the task confidence was
persisted and reaches the threshold and that a project was accepted; a
project stage below threshold stores a null `project_id` while persisting
its confidence and reasoning; a task stage below threshold stores a null
`task_id` while persisting its confidence and reasoning. -/
theorem association_threshold_gating (cls : Classifier) (threshold : ℚ)
    (e : Event) :
    ((classify_stages cls threshold e).1.task_id ≠ none →
      (classify_stages cls threshold e).1.project_id ≠ none ∧
      ∃ c, (classify_stages cls threshold e).1.task_confidence = some c ∧
        threshold ≤ c) ∧
    (∀ pr, cls.classifyProject e = .ok pr → pr.confidence < threshold →
      (classify_stages cls threshold e).1.project_id = none ∧
      (classify_stages cls threshold e).1.project_confidence =
        some pr.confidence ∧
      (classify_stages cls threshold e).1.reasoning = pr.reasoning) ∧
    (∀ pr pid tr, cls.classifyProject e = .ok pr → pr.choice = some pid →
      threshold ≤ pr.confidence → cls.classifyTask e pid = .ok tr →
      tr.confidence < threshold →
      (classify_stages cls threshold e).1.task_id = none ∧
      (classify_stages cls threshold e).1.task_confidence =
        some tr.confidence ∧
      (classify_stages cls threshold e).1.reasoning = tr.reasoning) := by
  refine ⟨?_, ?_, ?_⟩
  · intro hne
    cases hp : cls.classifyProject e with
    | error msg => simp [classify_stages, hp] at hne
    | ok pr =>
      cases hc : pr.choice with
      | none => simp [classify_stages, hp, hc] at hne
      | some pid =>
        cases hd : decide (threshold ≤ pr.confidence) with
        | false => simp [classify_stages, hp, hc, hd] at hne
        | true =>
          cases ht : cls.classifyTask e pid with
          | error msg => simp [classify_stages, hp, hc, hd, ht] at hne
          | ok tr =>
            simp only [classify_stages, hp, hc, hd, ht] at hne ⊢
            constructor
            · simp
            · by_cases hacc : tr.choice.isSome ∧ threshold ≤ tr.confidence
              · exact ⟨tr.confidence, by simp, hacc.2⟩
              · simp [hacc] at hne
  · intro pr hp hlt
    have hd : decide (threshold ≤ pr.confidence) = false := by
      simp [not_le.mpr hlt]
    cases hc : pr.choice with
    | none => simp [classify_stages, hp, hc]
    | some pid => simp [classify_stages, hp, hc, hd]
  · intro pr pid tr hp hc hle ht hlt
    have hd : decide (threshold ≤ pr.confidence) = true := by simp [hle]
    have hacc : ¬(tr.choice.isSome ∧ threshold ≤ tr.confidence) := by
      intro hx
      exact absurd hx.2 (not_le.mpr hlt)
    simp [classify_stages, hp, hc, hd, ht, hacc]

/-- C2 witness: the spec's scenario — project confidence 0.92 (accepted at
threshold 0.7), task confidence 0.55 (rejected) — stores `project_id` and a
null `task_id` while persisting the task confidence. -/
theorem association_threshold_gating_witness :
    (classify_stages scenarioClassifier (7/10) sampleEvent).1.task_id = none ∧
    (classify_stages scenarioClassifier (7/10) sampleEvent).1.task_confidence =
      some (55/100) ∧
    (classify_stages scenarioClassifier (7/10) sampleEvent).1.project_id =
      some 2 := by
  have h := (association_threshold_gating scenarioClassifier (7/10) sampleEvent).2.2
    { choice := some 2, confidence := 92/100, reasoning := "project match" } 2
    { choice := some 5, confidence := 55/100, reasoning := "task guess" }
    rfl rfl (by norm_num) rfl (by norm_num)
  refine ⟨h.1, h.2.1, ?_⟩
  norm_num [classify_stages, scenarioClassifier, sampleEvent]

/-- C1: across any number of association-engine runs without an operator
reset, a record's `attempted` flag is monotone (so it transitions
false-to-true at most once); per-record processing sets the flag on every
exit path; and a run over a store with zero unattempted records makes zero
classifier calls. -/
theorem association_engine_at_most_once (cls : Classifier) (threshold : ℚ)
    (limit : Nat) (st : AssocState) :
    (∀ n m i, n ≤ m → attemptedAt cls threshold limit st n i = true →
      attemptedAt cls threshold limit st m i = true) ∧
    (∀ e, (process_single_context cls threshold e).1.attempted = true) ∧
    ((∀ e ∈ st.events, e.attempted = true) →
      (run_batch cls threshold limit st).2 = 0) := by
  refine ⟨?_, ?_, ?_⟩
  · have step : ∀ n i, attemptedAt cls threshold limit st n i = true →
        attemptedAt cls threshold limit st (n + 1) i = true := by
      intro n i h
      obtain ⟨ids, hev⟩ := engine_runs_succ_events cls threshold limit st n
      unfold attemptedAt at h ⊢
      rw [hev, List.get?_map]
      cases hg : (engine_runs cls threshold limit st n).events.get? i with
      | none => rw [hg] at h; simp at h
      | some ev =>
        rw [hg] at h
        simp only [Option.map_some', Option.getD_some] at h
        simp [markAttemptedIfIn_mono ids ev h]
    intro n m i hnm h
    induction m, hnm using Nat.le_induction with
    | base => exact h
    | succ m _ ih => exact step m i ih
  · intro e
    rfl
  · intro hall
    have hfil : (st.events.filter fun e => !e.attempted) = [] := by
      rw [List.filter_eq_nil_iff]
      intro e he
      simp [hall e he]
    simp [run_batch, hfil]

/-- C1 witness: with every record already attempted, a run makes zero
classifier calls, and an attempted flag stays set after further runs. -/
theorem association_engine_at_most_once_witness :
    attemptedAt offlineClassifier (7/10) 10 allAttemptedState 3 0 = true ∧
    (run_batch offlineClassifier (7/10) 10 allAttemptedState).2 = 0 := by
  have h := association_engine_at_most_once offlineClassifier (7/10) 10
    allAttemptedState
  exact ⟨h.1 0 3 0 (by decide) (by decide), h.2.2 (by decide)⟩

/-- C10: a summary run marks associations `used_in_summary` only when the
new ProgressSummary row was actually persisted: when the store returns no
id, or a falsy id, the run leaves every association untouched, so no record
is consumed by a summary that was not stored. -/
theorem summary_mark_requires_persisted_id (sm : Summarizer)
    (textOf : Nat → String) (persist : Nat → Option Nat) (t : Nat)
    (st : SummaryState) (h : truthyId (persist t) = false) :
    (generate_summary_for_task sm textOf persist t st).associations =
      st.associations :=
  generate_falsy_assoc sm textOf persist t st h

/-- C10 witness: with an insert that always fails, the run changes no
association. -/
theorem summary_mark_requires_persisted_id_witness :
    (generate_summary_for_task constSummarizer (fun _ => "text")
        failingPersist 5 summaryRunState).associations =
      summaryRunState.associations :=
  summary_mark_requires_persisted_id constSummarizer (fun _ => "text")
    failingPersist 5 summaryRunState (by decide)

/-- C3: in a summary run for task `t` whose ProgressSummary row was
persisted, exactly one row is appended with `context_count` equal to the
number of records read at selection time; each association's
`used_in_summary` flag afterwards is its old flag or-ed with membership in
the selected set, all other fields unchanged; and the set of associations
with `used_in_summary = false` and `task_id = t` afterwards is empty —
it excludes exactly the records folded into the summary, which were all of
them. -/
theorem summary_selection_marking_atomicity (sm : Summarizer)
    (textOf : Nat → String) (persist : Nat → Option Nat) (t : Nat)
    (st : SummaryState) (h : truthyId (persist t) = true) :
    (∃ p, (generate_summary_for_task sm textOf persist t st).progress =
        st.progress ++ [p] ∧ p.task_id = t ∧
        p.context_count = (unused_contexts st t).length) ∧
    (∀ i a a', st.associations.get? i = some a →
      (generate_summary_for_task sm textOf persist t st).associations.get? i =
        some a' →
      a'.used_in_summary =
        (a.used_in_summary ||
          (a.task_id == some t &&
            ((unused_contexts st t).map fun x => x.event_id).contains
              a.event_id)) ∧
      a'.event_id = a.event_id ∧ a'.project_id = a.project_id ∧
      a'.task_id = a.task_id ∧ a'.project_confidence = a.project_confidence ∧
      a'.task_confidence = a.task_confidence ∧ a'.reasoning = a.reasoning) ∧
    unused_contexts (generate_summary_for_task sm textOf persist t st) t = [] := by
  obtain ⟨pid, hp, hpz⟩ := truthy_exists _ h
  have hgen := generate_truthy_eq sm textOf persist t st pid hp hpz
  refine ⟨⟨_, by rw [hgen], rfl, rfl⟩, ?_, unused_after_generate _ _ _ _ _ h⟩
  intro i a a' ha ha'
  rw [hgen] at ha'
  change (mark_contexts_used_in_summary t
      ((unused_contexts st t).map fun a => a.event_id)
      st.associations).get? i = some a' at ha'
  rw [mark_get, ha] at ha'
  simp only [Option.map_some', Option.some.injEq] at ha'
  by_cases hc : (a.task_id == some t &&
      ((unused_contexts st t).map fun x => x.event_id).contains a.event_id) = true
  · rw [if_pos hc] at ha'
    subst ha'
    refine ⟨?_, rfl, rfl, rfl, rfl, rfl, rfl⟩
    rw [hc, Bool.or_true]
  · rw [if_neg hc] at ha'
    subst ha'
    rw [Bool.not_eq_true] at hc
    refine ⟨?_, rfl, rfl, rfl, rfl, rfl, rfl⟩
    rw [hc, Bool.or_false]

/-- C3 witness: running the summary engine for task 5 over
`summaryRunState` with a successful insert leaves no unused association of
task 5. -/
theorem summary_selection_marking_atomicity_witness :
    unused_contexts (generate_summary_for_task constSummarizer
      (fun _ => "text") okPersist 5 summaryRunState) 5 = [] :=
  (summary_selection_marking_atomicity constSummarizer (fun _ => "text")
    okPersist 5 summaryRunState (by decide)).2.2

theorem progressFor_mk (A : List EventAssociation) (P : List ProgressSummary)
    (t : Nat) :
    progressFor { associations := A, progress := P } t =
      P.filter fun p => p.task_id == t := rfl

theorem mark_preserves_other_unused (t' t : Nat) (ht : t' ≠ t)
    (ids : List Nat) (l : List EventAssociation) :
    (mark_contexts_used_in_summary t' ids l).filter
      (fun a => a.task_id == some t && !a.used_in_summary) =
      l.filter fun a => a.task_id == some t && !a.used_in_summary := by
  induction l with
  | nil => rfl
  | cons a l ih =>
    simp only [mark_contexts_used_in_summary, List.map_cons] at ih ⊢
    by_cases hc : (a.task_id == some t' && ids.contains a.event_id) = true
    · rw [if_pos hc, List.filter_cons, List.filter_cons]
      have hta : a.task_id = some t' := by
        have hc' := hc
        simp only [Bool.and_eq_true] at hc'
        simpa using hc'.1
      have h1 : (({ a with used_in_summary := true } :
          EventAssociation).task_id == some t &&
          !({ a with used_in_summary := true } :
            EventAssociation).used_in_summary) = false := by
        simp
      have h2 : (a.task_id == some t && !a.used_in_summary) = false := by
        simp [hta, ht]
      simp only [h1, h2, Bool.false_eq_true, if_false]
      exact ih
    · rw [if_neg hc, List.filter_cons, List.filter_cons]
      rcases hpa : (a.task_id == some t && !a.used_in_summary) with _ | _
      · simp only [Bool.false_eq_true, if_false]
        exact ih
      · simp only [if_true]
        rw [ih]

theorem step_unused_other (sm : Summarizer) (textOf : Nat → String)
    (persist : Nat → Option Nat) (m : Nat) (t' t : Nat) (ht : t' ≠ t)
    (st : SummaryState) :
    unused_contexts (process_task_step sm textOf persist m t' st) t =
      unused_contexts st t := by
  unfold process_task_step
  split
  · unfold generate_summary_for_task
    cases hp : persist t' with
    | none => simp
    | some pid =>
      simp only
      by_cases hz : pid = 0
      · subst hz
        simp [unused_contexts]
      · simp only [if_neg hz]
        rw [unused_contexts_mk, mark_preserves_other_unused t' t ht]
        rfl
  · rfl

theorem step_progressFor_other (sm : Summarizer) (textOf : Nat → String)
    (persist : Nat → Option Nat) (m : Nat) (t' t : Nat) (ht : t' ≠ t)
    (st : SummaryState) :
    progressFor (process_task_step sm textOf persist m t' st) t =
      progressFor st t := by
  unfold process_task_step
  split
  · unfold generate_summary_for_task
    cases hp : persist t' with
    | none => simp
    | some pid =>
      simp only
      by_cases hz : pid = 0
      · subst hz
        simp [progressFor, List.filter_append, ht]
      · simp only [if_neg hz]
        rw [progressFor_mk, List.filter_append]
        simp [progressFor, ht]
  · rfl

theorem progress_after_generate (sm : Summarizer) (textOf : Nat → String)
    (persist : Nat → Option Nat) (t : Nat) (st : SummaryState) (pid : Nat)
    (hp : persist t = some pid) (hpz : pid ≠ 0) :
    ∃ p, progressFor (generate_summary_for_task sm textOf persist t st) t =
      progressFor st t ++ [p] ∧
      p.context_count = (unused_contexts st t).length := by
  refine ⟨⟨pid, t,
    sm.summarize ((unused_contexts st t).map fun a => textOf a.event_id),
    (unused_contexts st t).length⟩, ?_, rfl⟩
  rw [generate_truthy_eq sm textOf persist t st pid hp hpz, progressFor_mk,
    List.filter_append]
  congr 1
  simp

theorem run_tasks_preserves (sm : Summarizer) (textOf : Nat → String)
    (persist : Nat → Option Nat) (m t : Nat) (L : List Nat)
    (h : ∀ t' ∈ L, t' ≠ t) (st : SummaryState) :
    unused_contexts (run_tasks sm textOf persist m L st) t =
      unused_contexts st t ∧
    progressFor (run_tasks sm textOf persist m L st) t = progressFor st t := by
  induction L generalizing st with
  | nil => exact ⟨rfl, rfl⟩
  | cons t' L ih =>
    have ht' : t' ≠ t := h t' (List.mem_cons_self t' L)
    have hrest := ih (fun x hx => h x (List.mem_cons_of_mem t' hx))
      (process_task_step sm textOf persist m t' st)
    simp only [run_tasks, List.foldl_cons] at hrest ⊢
    refine ⟨?_, ?_⟩
    · rw [hrest.1, step_unused_other sm textOf persist m t' t ht' st]
    · rw [hrest.2, step_progressFor_other sm textOf persist m t' t ht' st]

/-- C4: for every task `t` that `process_all_tasks` visits (it has at least
one unused association): if its eligible unused count is below
`min_new_contexts` (default 5) the cycle produces no new summary for it;
if the count reaches the threshold and the store persists the row, exactly
one new summary is produced for it, counting and consuming all eligible
records at that instant. -/
theorem summary_trigger_threshold (sm : Summarizer) (textOf : Nat → String)
    (persist : Nat → Option Nat) (min_new_contexts : Nat) (st : SummaryState)
    (t : Nat) (ht : t ∈ tasks_with_unused st) :
    ((unused_contexts st t).length < min_new_contexts →
      progressFor (process_all_tasks sm textOf persist min_new_contexts st) t =
        progressFor st t) ∧
    (min_new_contexts ≤ (unused_contexts st t).length →
      truthyId (persist t) = true →
      (∃ p, progressFor (process_all_tasks sm textOf persist min_new_contexts st) t =
          progressFor st t ++ [p] ∧
          p.context_count = (unused_contexts st t).length) ∧
      unused_contexts (process_all_tasks sm textOf persist min_new_contexts st) t
        = []) := by
  obtain ⟨L1, L2, hL⟩ := List.append_of_mem ht
  have hnd : (tasks_with_unused st).Nodup := List.nodup_dedup _
  rw [hL, List.nodup_append] at hnd
  obtain ⟨h1, h2, hdisj⟩ := hnd
  have hnotin1 : t ∉ L1 := fun hm => hdisj hm (List.mem_cons_self t L2)
  have hnotin2 : t ∉ L2 := (List.nodup_cons.mp h2).1
  have hfold : process_all_tasks sm textOf persist min_new_contexts st =
      run_tasks sm textOf persist min_new_contexts L2
        (process_task_step sm textOf persist min_new_contexts t
          (run_tasks sm textOf persist min_new_contexts L1 st)) := by
    unfold process_all_tasks run_tasks
    rw [hL, List.foldl_append, List.foldl_cons]
  have hpre := run_tasks_preserves sm textOf persist min_new_contexts t L1
    (fun x hx hxt => hnotin1 (hxt ▸ hx)) st
  constructor
  · intro hlt
    have hskip : process_task_step sm textOf persist min_new_contexts t
        (run_tasks sm textOf persist min_new_contexts L1 st) =
        run_tasks sm textOf persist min_new_contexts L1 st := by
      unfold process_task_step
      rw [if_neg]
      rw [hpre.1]
      exact not_le.mpr hlt
    have hpost := run_tasks_preserves sm textOf persist min_new_contexts t L2
      (fun x hx hxt => hnotin2 (hxt ▸ hx))
      (run_tasks sm textOf persist min_new_contexts L1 st)
    rw [hfold, hskip, hpost.2, hpre.2]
  · intro hge htr
    obtain ⟨pid, hp, hpz⟩ := truthy_exists _ htr
    have hstep : process_task_step sm textOf persist min_new_contexts t
        (run_tasks sm textOf persist min_new_contexts L1 st) =
        generate_summary_for_task sm textOf persist t
          (run_tasks sm textOf persist min_new_contexts L1 st) := by
      unfold process_task_step
      rw [if_pos]
      rw [hpre.1]
      exact hge
    have hgen := generate_truthy_eq sm textOf persist t
      (run_tasks sm textOf persist min_new_contexts L1 st) pid hp hpz
    have hpost := run_tasks_preserves sm textOf persist min_new_contexts t L2
      (fun x hx hxt => hnotin2 (hxt ▸ hx))
      (generate_summary_for_task sm textOf persist t
        (run_tasks sm textOf persist min_new_contexts L1 st))
    rw [hfold, hstep]
    constructor
    · obtain ⟨p, hpp, hpc⟩ := progress_after_generate sm textOf persist t
        (run_tasks sm textOf persist min_new_contexts L1 st) pid hp hpz
      refine ⟨p, ?_, ?_⟩
      · rw [hpost.2, hpp, hpre.2]
      · rw [hpc, hpre.1]
    · rw [hpost.1]
      exact unused_after_generate sm textOf persist t
        (run_tasks sm textOf persist min_new_contexts L1 st) htr

/-- C4 witness: over `summaryRunState`, task 5 has five eligible records
(threshold met: one summary with `context_count = 5`) while task 6 has one
(below 5: no summary). -/
theorem summary_trigger_threshold_witness :
    (∃ p, progressFor (process_all_tasks constSummarizer (fun _ => "text")
        okPersist 5 summaryRunState) 5 =
        progressFor summaryRunState 5 ++ [p] ∧ p.context_count = 5) ∧
    progressFor (process_all_tasks constSummarizer (fun _ => "text")
      okPersist 5 summaryRunState) 6 = progressFor summaryRunState 6 := by
  constructor
  · have h := (summary_trigger_threshold constSummarizer (fun _ => "text")
      okPersist 5 summaryRunState 5 (by decide)).2 (by decide) (by decide)
    obtain ⟨⟨p, hp1, hp2⟩, _⟩ := h
    refine ⟨p, hp1, ?_⟩
    rw [hp2]
    decide
  · exact (summary_trigger_threshold constSummarizer (fun _ => "text")
      okPersist 5 summaryRunState 6 (by decide)).1 (by decide)

theorem filterMap_reg_mem (regs : HandlerRegistry) (ty : ConfigChangeType)
    (h : Nat) :
    h ∈ regs.filterMap (fun r => if r.1 = ty then some r.2 else none) ↔
      (ty, h) ∈ regs := by
  rw [List.mem_filterMap]
  constructor
  · rintro ⟨r, hr, hf⟩
    by_cases hc : r.1 = ty
    · rw [if_pos hc] at hf
      have h2 : r.2 = h := Option.some.inj hf
      have : (ty, h) = r := by
        cases r
        simp_all
      rwa [this]
    · rw [if_neg hc] at hf
      exact absurd hf (by simp)
  · intro hr
    exact ⟨(ty, h), hr, by simp⟩

theorem handlersFor_mem (regs : HandlerRegistry) (ty : ConfigChangeType)
    (h : Nat) :
    h ∈ handlersFor regs ty ↔
      (ty, h) ∈ regs ∨ (ConfigChangeType.all, h) ∈ regs := by
  unfold handlersFor
  rw [List.mem_append, filterMap_reg_mem, filterMap_reg_mem]

theorem detect_changes_mem (old new : Config) (ty : ConfigChangeType)
    (o n : ConfigSection) :
    (ty, o, n) ∈ detect_changes old new ↔
      (ty ∈ sectionTypes ∧ getSection old ty ≠ getSection new ty ∧
        o = getSection old ty ∧ n = getSection new ty) := by
  unfold detect_changes
  rw [List.mem_filterMap]
  constructor
  · rintro ⟨ty', hty', hf⟩
    by_cases hd : getSection old ty' ≠ getSection new ty'
    · rw [if_pos hd] at hf
      obtain ⟨h1, h2, h3⟩ : ty' = ty ∧ getSection old ty' = o ∧
          getSection new ty' = n := by
        simpa [Prod.ext_iff] using hf
      subst h1
      exact ⟨hty', hd, h2.symm, h3.symm⟩
    · rw [if_neg hd] at hf
      exact absurd hf (by simp)
  · rintro ⟨hty, hdiff, rfl, rfl⟩
    exact ⟨ty, hty, by rw [if_pos hdiff]⟩

/-- C5: the dispatcher emits an entry exactly for the sections whose
content differs between the old and new configuration; each emitted entry
invokes precisely the handlers registered for its type plus the wildcard
handlers; and a reload touching only the auto-association section invokes
no handler that is not registered for auto-association or the wildcard —
in particular none registered solely for jobs or task-summary. -/
theorem config_dispatch_targeting (regs : HandlerRegistry)
    (old new : Config) :
    (∀ ty o n, (ty, o, n) ∈ detect_changes old new ↔
      (ty ∈ sectionTypes ∧ getSection old ty ≠ getSection new ty ∧
        o = getSection old ty ∧ n = getSection new ty)) ∧
    (∀ ty o n h, (ty, o, n) ∈ detect_changes old new →
      (({ handler := h, ty := ty, old_value := o, new_value := n } :
          Invocation) ∈ dispatch_changes regs old new ↔
        ((ty, h) ∈ regs ∨ (ConfigChangeType.all, h) ∈ regs))) ∧
    ((∀ ty ∈ sectionTypes, ty ≠ ConfigChangeType.auto_association →
        getSection old ty = getSection new ty) →
      ∀ inv ∈ dispatch_changes regs old new,
        (ConfigChangeType.auto_association, inv.handler) ∈ regs ∨
        (ConfigChangeType.all, inv.handler) ∈ regs) := by
  refine ⟨detect_changes_mem old new, ?_, ?_⟩
  · intro ty o n h hentry
    constructor
    · intro hinv
      obtain ⟨entry, hent, hmap⟩ := List.mem_flatMap.mp hinv
      obtain ⟨h', hh', heq⟩ := List.mem_map.mp hmap
      have hty : entry.1 = ty := congrArg Invocation.ty heq
      have hhh : h' = h := congrArg Invocation.handler heq
      rw [hty, hhh] at hh'
      exact (handlersFor_mem regs ty h).mp hh'
    · intro hreg
      exact List.mem_flatMap.mpr ⟨(ty, o, n), hentry,
        List.mem_map.mpr ⟨h, (handlersFor_mem regs ty h).mpr hreg, rfl⟩⟩
  · intro honly inv hinv
    obtain ⟨entry, hent, hmap⟩ := List.mem_flatMap.mp hinv
    obtain ⟨h', hh', heq⟩ := List.mem_map.mp hmap
    obtain ⟨hty1, hdiff, _, _⟩ :=
      (detect_changes_mem old new entry.1 entry.2.1 entry.2.2).mp (by
        rwa [show (entry.1, entry.2.1, entry.2.2) = entry from rfl])
    have hta : entry.1 = ConfigChangeType.auto_association := by
      by_contra hne
      exact hdiff (honly entry.1 hty1 hne)
    have hhh : inv.handler = h' := (congrArg Invocation.handler heq).symm
    rw [hta] at hh'
    rw [hhh]
    exact (handlersFor_mem regs ConfigChangeType.auto_association h').mp hh'

/-- C5 witness: with only the auto-association section edited, handler 2
(registered for auto-association) receives the change — and the entry list
contains exactly the auto-association delta. -/
theorem config_dispatch_targeting_witness :
    ({ handler := 2, ty := ConfigChangeType.auto_association,
       old_value := [("confidence_threshold", "0.7")],
       new_value := [("confidence_threshold", "0.8")] } : Invocation) ∈
      dispatch_changes sampleRegs oldConfig newConfig :=
  ((config_dispatch_targeting sampleRegs oldConfig newConfig).2.1
    ConfigChangeType.auto_association [("confidence_threshold", "0.7")]
    [("confidence_threshold", "0.8")] 2 (by decide)).mpr (Or.inl (by decide))

theorem notifyAll_foldl_invoked (fails : FailureOracle)
    (invs : List Invocation) :
    ∀ log, (invs.foldl (notifyStep fails) log).invoked =
      log.invoked ++ invs := by
  induction invs with
  | nil => intro log; simp
  | cons inv invs ih =>
    intro log
    rw [List.foldl_cons, ih]
    cases hcall : callHandler fails inv with
    | error e => simp [notifyStep, hcall]
    | ok u => simp [notifyStep, hcall]

theorem notifyAll_foldl_errors (fails : FailureOracle)
    (invs : List Invocation) :
    ∀ log, (invs.foldl (notifyStep fails) log).errorsLogged =
      log.errorsLogged ++ invs.filterMap fun inv =>
        if fails inv.ty inv.handler = true then
          some (inv.handler, inv.ty)
        else none := by
  induction invs with
  | nil => intro log; simp
  | cons inv invs ih =>
    intro log
    rw [List.foldl_cons, ih]
    by_cases hf : fails inv.ty inv.handler = true
    · simp [notifyStep, callHandler, hf, List.filterMap_cons]
    · simp [notifyStep, callHandler, hf, List.filterMap_cons]

/-- C6: handler failures are isolated at the dispatch site — the list of
handler calls made by a reload is the full dispatch list whatever the
failure behaviour, so a raising handler never prevents another handler of
the same (or another) emitted change from being invoked; the raised
exception is caught and logged; and in particular, for two handlers
registered for the same emitted change with the first raising, the second
is still invoked. -/
theorem config_handler_isolation (fails : FailureOracle)
    (regs : HandlerRegistry) (old new : Config) :
    ((dispatch_with_failures fails regs old new).invoked =
      dispatch_changes regs old new) ∧
    (∀ inv ∈ dispatch_changes regs old new,
      fails inv.ty inv.handler = true →
      (inv.handler, inv.ty) ∈
        (dispatch_with_failures fails regs old new).errorsLogged) ∧
    (∀ ty o n h1 h2, (ty, o, n) ∈ detect_changes old new →
      (ty, h1) ∈ regs → (ty, h2) ∈ regs → fails ty h1 = true →
      ({ handler := h2, ty := ty, old_value := o, new_value := n } :
          Invocation) ∈ (dispatch_with_failures fails regs old new).invoked) := by
  have hinv : (dispatch_with_failures fails regs old new).invoked =
      dispatch_changes regs old new := by
    unfold dispatch_with_failures notifyAll
    rw [notifyAll_foldl_invoked]
    rfl
  refine ⟨hinv, ?_, ?_⟩
  · intro inv hmem hf
    unfold dispatch_with_failures notifyAll
    rw [notifyAll_foldl_errors]
    refine List.mem_append.mpr (Or.inr ?_)
    exact List.mem_filterMap.mpr ⟨inv, hmem, by rw [if_pos hf]⟩
  · intro ty o n h1 h2 hentry hr1 hr2 hf
    rw [hinv]
    exact List.mem_flatMap.mpr ⟨(ty, o, n), hentry,
      List.mem_map.mpr ⟨h2, (handlersFor_mem regs ty h2).mpr (Or.inl hr2), rfl⟩⟩

/-- C6 witness: handlers 1 and 2 are both registered for auto-association;
handler 1 raises on every change, yet handler 2 is still invoked and the
exception of handler 1 is logged. -/
theorem config_handler_isolation_witness :
    ({ handler := 2, ty := ConfigChangeType.auto_association,
       old_value := [("confidence_threshold", "0.7")],
       new_value := [("confidence_threshold", "0.8")] } : Invocation) ∈
      (dispatch_with_failures failsFirst pairRegs oldConfig newConfig).invoked ∧
    (1, ConfigChangeType.auto_association) ∈
      (dispatch_with_failures failsFirst pairRegs oldConfig newConfig).errorsLogged := by
  have h := config_handler_isolation failsFirst pairRegs oldConfig newConfig
  constructor
  · exact h.2.2 ConfigChangeType.auto_association
      [("confidence_threshold", "0.7")] [("confidence_threshold", "0.8")]
      1 2 (by decide) (by decide) (by decide) (by decide)
  · exact h.2.1 ⟨1, ConfigChangeType.auto_association,
      [("confidence_threshold", "0.7")],
      [("confidence_threshold", "0.8")]⟩ (by decide) (by decide)

theorem countKind_append (h1 h2 : List SchedLogEntry) (j : Nat)
    (k : SchedLogKind) :
    countKind (h1 ++ h2) j k = countKind h1 j k + countKind h2 j k := by
  simp [countKind, List.filter_append]

theorem countKind_single (e : SchedLogEntry) (j : Nat) (k : SchedLogKind) :
    countKind [e] j k = if (e.job == j && e.kind == k) = true then 1 else 0 := by
  simp only [countKind]
  by_cases h : (e.job == j && e.kind == k) = true
  · simp [h]
  · simp [h]

theorem schedStep_inv (st : SchedState) (ev : SchedEvent)
    (h : SchedInv st) : SchedInv (schedStep st ev) := by
  obtain ⟨hnd, hcnt⟩ := h
  cases ev with
  | fire j' =>
    by_cases hr : j' ∈ st.running
    · refine ⟨by simpa [schedStep, hr] using hnd, ?_⟩
      intro j
      simp only [schedStep, if_pos hr]
      rw [countKind_append, countKind_single, countKind_append,
        countKind_single]
      have h1 : (SchedLogKind.misfireCoalesced == SchedLogKind.started)
          = false := by decide
      have h2 : (SchedLogKind.misfireCoalesced == SchedLogKind.finished)
          = false := by decide
      simp only [h1, h2, Bool.and_false, Bool.false_eq_true, if_false]
      exact hcnt j
    · refine ⟨by
        simp only [schedStep, if_neg hr]
        exact List.nodup_cons.mpr ⟨hr, hnd⟩, ?_⟩
      intro j
      simp only [schedStep, if_neg hr]
      rw [countKind_append, countKind_single, countKind_append,
        countKind_single]
      have h1 : (SchedLogKind.started == SchedLogKind.started) = true := by
        decide
      have h2 : (SchedLogKind.started == SchedLogKind.finished) = false := by
        decide
      simp only [h1, h2, Bool.and_false, Bool.and_true, Bool.false_eq_true,
        if_false]
      by_cases hj : j' = j
      · subst hj
        have hmem : j' ∈ j' :: st.running := List.mem_cons_self j' st.running
        simp only [beq_self_eq_true, if_true, hmem]
        rw [hcnt j']
        simp [hr]
      · have hb : (j' == j) = false := by simpa using hj
        have hmem : (j ∈ j' :: st.running) ↔ (j ∈ st.running) := by
          simp [List.mem_cons, Ne.symm hj]
        simp only [hb, Bool.false_eq_true, if_false, hmem]
        rw [hcnt j]
        simp
  | finish j' =>
    by_cases hr : j' ∈ st.running
    · refine ⟨by
        simp only [schedStep, if_pos hr]
        exact hnd.erase j', ?_⟩
      intro j
      simp only [schedStep, if_pos hr]
      rw [countKind_append, countKind_single, countKind_append,
        countKind_single]
      have h1 : (SchedLogKind.finished == SchedLogKind.started) = false := by
        decide
      have h2 : (SchedLogKind.finished == SchedLogKind.finished) = true := by
        decide
      simp only [h1, h2, Bool.and_false, Bool.and_true, Bool.false_eq_true,
        if_false]
      by_cases hj : j' = j
      · subst hj
        have hmem : j' ∉ st.running.erase j' := by
          intro hin
          exact absurd ((hnd.mem_erase_iff).mp hin).1 (by simp)
        simp only [beq_self_eq_true, if_true, hmem, if_false]
        rw [hcnt j']
        simp [hr]
      · have hb : (j' == j) = false := by simpa using hj
        have hmem : (j ∈ st.running.erase j') ↔ (j ∈ st.running) := by
          rw [hnd.mem_erase_iff]
          simp [Ne.symm hj]
        simp only [hb, Bool.false_eq_true, if_false, hmem]
        rw [hcnt j]
        simp
    · simp only [schedStep, if_neg hr]
      exact ⟨hnd, hcnt⟩

theorem schedRun_inv (evs : List SchedEvent) : SchedInv (schedRun evs) := by
  unfold schedRun
  have h : ∀ st, SchedInv st → SchedInv (evs.foldl schedStep st) := by
    induction evs with
    | nil => intro st h; exact h
    | cons ev evs ih =>
      intro st h
      rw [List.foldl_cons]
      exact ih _ (schedStep_inv st ev h)
  exact h _ ⟨List.nodup_nil, fun j => by simp [countKind]⟩

/-- C7: the same job never has two overlapping executions — at every
reachable scheduler state, a job's started entries exceed its finished
entries by at most one — and a trigger firing while the job's previous
invocation is still running is coalesced: the running set is untouched (no
concurrent start) and the only effect is a logged misfire entry, not an
error. -/
theorem scheduler_non_reentrancy (evs : List SchedEvent) (j : Nat) :
    countKind (schedRun evs).history j .started ≤
      countKind (schedRun evs).history j .finished + 1 ∧
    (∀ st : SchedState, j ∈ st.running →
      (schedStep st (SchedEvent.fire j)).running = st.running ∧
      (schedStep st (SchedEvent.fire j)).history =
        st.history ++ [{ job := j, kind := SchedLogKind.misfireCoalesced }]) := by
  constructor
  · have h := (schedRun_inv evs).2 j
    rw [h]
    by_cases hm : j ∈ (schedRun evs).running
    · simp [hm]
    · simp [hm]
  · intro st hmem
    constructor <;> simp [schedStep, hmem]

/-- C7 witness: firing job 1 twice before it finishes starts it once,
records one coalesced misfire, and never exceeds one active execution. -/
theorem scheduler_non_reentrancy_witness :
    countKind
      (schedRun [SchedEvent.fire 1, SchedEvent.fire 1, SchedEvent.finish 1]).history
      1 .started ≤
    countKind
      (schedRun [SchedEvent.fire 1, SchedEvent.fire 1, SchedEvent.finish 1]).history
      1 .finished + 1 ∧
    (schedStep { running := [1], history := [] }
      (SchedEvent.fire 1)).history =
      [{ job := 1, kind := SchedLogKind.misfireCoalesced }] := by
  have h := scheduler_non_reentrancy
    [SchedEvent.fire 1, SchedEvent.fire 1, SchedEvent.finish 1] 1
  refine ⟨h.1, ?_⟩
  have h2 := (h.2 { running := [1], history := [] } (by decide)).2
  simpa using h2

end LifeTrace
